import Mathlib

/-!
Shallow embedding of `local-state-sync` (47ng/local-state-sync).

Source files embedded:
- `src/codec.ts` : `base64UrlEncode` / `base64UrlDecode` (btoa/atob with the
  URL-safe substitutions and padding stripped);
- `src/index.ts` : the `LocalStateSync` class (setup / key derivation,
  AES-GCM framing with an optional expiration carried as associated data,
  storage event handling, read/write paths).

Modelling conventions:
- bytes are `Nat` (with explicit `< 256` bounds where the encoding needs them);
- the platform crypto primitives (SHA-512, AES-GCM encrypt/decrypt, i.e.
  `window.crypto.subtle`) are black-box collaborators of the library, so they
  are parameters collected in a `CipherOps` structure; everything the
  repository itself implements is an executable Lean definition;
- `window.localStorage` is an association list `Storage` with the
  `getItem`/`setItem`/`removeItem` operations used by the source;
- promise rejections / thrown exceptions are `Except` errors; `try/catch`
  blocks become matches on the `Except` value;
- `atob` is modelled as a total function (on input containing characters the
  codec cannot produce it returns junk bytes where the browser primitive
  throws; both behaviours are absorbed by every caller involved in the
  claims, and the spec leaves decoding of malformed input undefined).
-/

/-- Induction principle following the 3-byte chunking used by base64. -/
theorem chunk3Induction {α : Type} (P : List α → Prop) (h0 : P [])
    (h1 : ∀ a, P [a]) (h2 : ∀ a b, P [a, b])
    (h3 : ∀ a b c rest, P rest → P (a :: b :: c :: rest)) : ∀ l, P l
  | [] => h0
  | [a] => h1 a
  | [a, b] => h2 a b
  | a :: b :: c :: rest => h3 a b c rest (chunk3Induction P h0 h1 h2 h3 rest)

/-- Induction principle following the 4-character chunking used by base64. -/
theorem chunk4Induction {α : Type} (P : List α → Prop) (h0 : P [])
    (h1 : ∀ a, P [a]) (h2 : ∀ a b, P [a, b]) (h3 : ∀ a b c, P [a, b, c])
    (h4 : ∀ a b c d rest, P rest → P (a :: b :: c :: d :: rest)) : ∀ l, P l
  | [] => h0
  | [a] => h1 a
  | [a, b] => h2 a b
  | [a, b, c] => h3 a b c
  | a :: b :: c :: d :: rest => h4 a b c d rest (chunk4Induction P h0 h1 h2 h3 h4 rest)

/-! ## Codec (`src/codec.ts`)

`base64UrlEncode` is `window.btoa(String.fromCharCode(...input))` followed by
the replacements `+ → -`, `/ → _` and stripping the trailing `={1,2}` padding.
`base64UrlDecode` is the replacements `- → +`, `_ → /` followed by
`window.atob` (whose forgiving-base64 mode strips trailing `=` padding),
taking the char codes of the result. -/

/-- The standard base64 alphabet used by `btoa`/`atob`. -/
def b64AlphabetChars : List Char :=
  "ABCDEFGHIJKLMNOPQRSTUVWXYZabcdefghijklmnopqrstuvwxyz0123456789+/".toList

/-- The character `btoa` emits for a 6-bit group. -/
def b64Char (n : Nat) : Char := b64AlphabetChars.getD n 'A'

/-- The 6-bit group `atob` reads back from a character (junk for characters
outside the alphabet, where the browser primitive throws). -/
def b64Value (c : Char) : Nat := b64AlphabetChars.indexOf c

/-- `btoa` on a list of byte values, padding included. -/
def btoaList : List Nat → List Char
  | [] => []
  | [a] => [b64Char (a / 4), b64Char (a % 4 * 16), '=', '=']
  | [a, b] => [b64Char (a / 4), b64Char (a % 4 * 16 + b / 16), b64Char (b % 16 * 4), '=']
  | a :: b :: c :: rest =>
    b64Char (a / 4) :: b64Char (a % 4 * 16 + b / 16) ::
      b64Char (b % 16 * 4 + c / 64) :: b64Char (c % 64) :: btoaList rest

/-- Removal of the trailing `={1,2}` padding (the `.replace(/={1,2}$/, '')`
of the encoder, also performed by `atob` itself on its input). -/
def stripPad (s : List Char) : List Char :=
  if s.reverse.take 2 = ['=', '='] then s.dropLast.dropLast
  else if s.reverse.take 1 = ['='] then s.dropLast
  else s

/-- `atob` after padding removal: 4 characters back to 3 bytes. -/
def atobList : List Char → List Nat
  | [] => []
  | [_] => []
  | [c0, c1] => [b64Value c0 * 4 + b64Value c1 / 16]
  | [c0, c1, c2] =>
    [b64Value c0 * 4 + b64Value c1 / 16, b64Value c1 % 16 * 16 + b64Value c2 / 4]
  | c0 :: c1 :: c2 :: c3 :: rest =>
    (b64Value c0 * 4 + b64Value c1 / 16) ::
      (b64Value c1 % 16 * 16 + b64Value c2 / 4) ::
      (b64Value c2 % 4 * 64 + b64Value c3) :: atobList rest

/-- The `+ → -`, `/ → _` substitution of the encoder. -/
def substChar (c : Char) : Char :=
  if c = '+' then '-' else if c = '/' then '_' else c

/-- The `- → +`, `_ → /` substitution of the decoder. -/
def unsubstChar (c : Char) : Char :=
  if c = '-' then '+' else if c = '_' then '/' else c

/-- `base64UrlEncode` from `src/codec.ts`. -/
def base64UrlEncode (input : List Nat) : String :=
  String.mk ((stripPad (btoaList input)).map substChar)

/-- `base64UrlDecode` from `src/codec.ts`, on the character list. -/
def base64UrlDecodeChars (input : List Char) : List Nat :=
  atobList (stripPad (input.map unsubstChar))

/-- `base64UrlDecode` from `src/codec.ts`. -/
def base64UrlDecode (input : String) : List Nat :=
  base64UrlDecodeChars input.data

/-! ### Codec lemmas -/

/-- Padless variant of `btoaList`; `stripPad (btoaList b)` computes it. -/
def btoaNoPad : List Nat → List Char
  | [] => []
  | [a] => [b64Char (a / 4), b64Char (a % 4 * 16)]
  | [a, b] => [b64Char (a / 4), b64Char (a % 4 * 16 + b / 16), b64Char (b % 16 * 4)]
  | a :: b :: c :: rest =>
    b64Char (a / 4) :: b64Char (a % 4 * 16 + b / 16) ::
      b64Char (b % 16 * 4 + c / 64) :: b64Char (c % 64) :: btoaNoPad rest

theorem b64Char_mem (n : Nat) : b64Char n ∈ b64AlphabetChars := by
  unfold b64Char
  rcases Nat.lt_or_ge n b64AlphabetChars.length with h | h
  · rw [List.getD_eq_getElem?_getD, List.getElem?_eq_getElem h, Option.getD_some]
    exact List.getElem_mem h
  · rw [List.getD_eq_getElem?_getD, List.getElem?_eq_none h]
    decide

theorem b64Value_b64Char : ∀ n < 64, b64Value (b64Char n) = n := by decide

theorem alphabet_ne_pad : ∀ c ∈ b64AlphabetChars, c ≠ '=' := by decide

theorem unsubst_subst_alphabet : ∀ c ∈ b64AlphabetChars, unsubstChar (substChar c) = c := by
  decide

theorem subst_alphabet_excluded :
    ∀ c ∈ b64AlphabetChars,
      substChar c ≠ '+' ∧ substChar c ≠ '/' ∧ substChar c ≠ '=' ∧ substChar c ≠ '.' := by
  decide

theorem mem_btoaNoPad (b : List Nat) : ∀ c ∈ btoaNoPad b, c ∈ b64AlphabetChars := by
  induction b using chunk3Induction with
  | h0 => intro c hc; simp [btoaNoPad] at hc
  | h1 a =>
    intro c hc
    simp [btoaNoPad] at hc
    rcases hc with rfl | rfl <;> exact b64Char_mem _
  | h2 a b =>
    intro c hc
    simp [btoaNoPad] at hc
    rcases hc with rfl | rfl | rfl <;> exact b64Char_mem _
  | h3 a b c rest ih =>
    intro x hx
    simp [btoaNoPad] at hx
    rcases hx with rfl | rfl | rfl | rfl | hx
    · exact b64Char_mem _
    · exact b64Char_mem _
    · exact b64Char_mem _
    · exact b64Char_mem _
    · exact ih x hx

theorem stripPad_of_ne_pad (s : List Char) (h : ∀ c ∈ s, c ≠ '=') : stripPad s = s := by
  have h2 : ¬ s.reverse.take 2 = ['=', '='] := by
    intro he
    have hm : '=' ∈ s.reverse.take 2 := by rw [he]; simp
    have hm2 : '=' ∈ s := by
      have := List.mem_of_mem_take hm
      simpa using this
    exact h _ hm2 rfl
  have h1 : ¬ s.reverse.take 1 = ['='] := by
    intro he
    have hm : '=' ∈ s.reverse.take 1 := by rw [he]; simp
    have hm2 : '=' ∈ s := by
      have := List.mem_of_mem_take hm
      simpa using this
    exact h _ hm2 rfl
  simp [stripPad, h1, h2]

theorem stripPad_append (l s : List Char) (h : 2 ≤ s.length) :
    stripPad (l ++ s) = l ++ stripPad s := by
  have hs0 : s ≠ [] := by
    intro he; subst he; simp at h
  have hs1 : s.dropLast ≠ [] := by
    intro he
    have := congrArg List.length he
    simp [List.length_dropLast] at this
    omega
  have ht2 : (l ++ s).reverse.take 2 = s.reverse.take 2 := by
    rw [List.reverse_append, List.take_append_of_le_length (by simp; omega)]
  have ht1 : (l ++ s).reverse.take 1 = s.reverse.take 1 := by
    rw [List.reverse_append, List.take_append_of_le_length (by simp; omega)]
  unfold stripPad
  rw [ht2, ht1]
  split_ifs
  · rw [List.dropLast_append_of_ne_nil _ hs0, List.dropLast_append_of_ne_nil _ hs1]
  · rw [List.dropLast_append_of_ne_nil _ hs0]
  · rfl

theorem btoaList_length (b : List Nat) (h : b ≠ []) : 2 ≤ (btoaList b).length := by
  match b with
  | [] => exact absurd rfl h
  | [a] => simp [btoaList]
  | [a, c] => simp [btoaList]
  | a :: c :: d :: rest => simp [btoaList]

theorem stripPad_btoaList (b : List Nat) : stripPad (btoaList b) = btoaNoPad b := by
  induction b using chunk3Induction with
  | h0 => simp [btoaList, btoaNoPad, stripPad]
  | h1 a => simp [btoaList, btoaNoPad, stripPad]
  | h2 a b =>
    have hz : ¬ b64Char (b % 16 * 4) = '=' := alphabet_ne_pad _ (b64Char_mem _)
    simp [btoaList, btoaNoPad, stripPad, hz]
  | h3 a b c rest ih =>
    show stripPad
        (b64Char (a / 4) :: b64Char (a % 4 * 16 + b / 16) ::
          b64Char (b % 16 * 4 + c / 64) :: b64Char (c % 64) :: btoaList rest) = _
    rcases eq_or_ne rest [] with rfl | hne
    · rw [stripPad_of_ne_pad]
      · rfl
      · intro x hx
        simp [btoaList] at hx
        rcases hx with rfl | rfl | rfl | rfl <;> exact alphabet_ne_pad _ (b64Char_mem _)
    · have hlen := btoaList_length rest hne
      rw [show b64Char (a / 4) :: b64Char (a % 4 * 16 + b / 16) ::
            b64Char (b % 16 * 4 + c / 64) :: b64Char (c % 64) :: btoaList rest =
          [b64Char (a / 4), b64Char (a % 4 * 16 + b / 16),
            b64Char (b % 16 * 4 + c / 64), b64Char (c % 64)] ++ btoaList rest from rfl]
      rw [stripPad_append _ _ hlen, ih]
      rfl

theorem atob_btoaNoPad (b : List Nat) (h : ∀ x ∈ b, x < 256) :
    atobList (btoaNoPad b) = b := by
  induction b using chunk3Induction with
  | h0 => rfl
  | h1 a =>
    have ha : a < 256 := h a (by simp)
    show [b64Value (b64Char (a / 4)) * 4 + b64Value (b64Char (a % 4 * 16)) / 16] = [a]
    rw [b64Value_b64Char _ (by omega), b64Value_b64Char _ (by omega)]
    simp only [List.cons.injEq, and_true]
    omega
  | h2 a b =>
    have ha : a < 256 := h a (by simp)
    have hb : b < 256 := h b (by simp)
    show [b64Value (b64Char (a / 4)) * 4 + b64Value (b64Char (a % 4 * 16 + b / 16)) / 16,
        b64Value (b64Char (a % 4 * 16 + b / 16)) % 16 * 16 +
          b64Value (b64Char (b % 16 * 4)) / 4] = [a, b]
    rw [b64Value_b64Char _ (by omega), b64Value_b64Char _ (by omega),
      b64Value_b64Char _ (by omega)]
    simp only [List.cons.injEq, and_true]
    constructor <;> omega
  | h3 a b c rest ih =>
    have ha : a < 256 := h a (by simp)
    have hb : b < 256 := h b (by simp)
    have hc : c < 256 := h c (by simp)
    have ih2 := ih (fun x hx => h x (by simp [hx]))
    show (b64Value (b64Char (a / 4)) * 4 + b64Value (b64Char (a % 4 * 16 + b / 16)) / 16) ::
        (b64Value (b64Char (a % 4 * 16 + b / 16)) % 16 * 16 +
          b64Value (b64Char (b % 16 * 4 + c / 64)) / 4) ::
        (b64Value (b64Char (b % 16 * 4 + c / 64)) % 4 * 64 +
          b64Value (b64Char (c % 64))) :: atobList (btoaNoPad rest) = a :: b :: c :: rest
    rw [b64Value_b64Char _ (by omega), b64Value_b64Char _ (by omega),
      b64Value_b64Char _ (by omega), b64Value_b64Char _ (by omega), ih2]
    simp only [List.cons.injEq, and_true]
    refine ⟨by omega, by omega, by omega⟩

theorem decode_encode_aux (b : List Nat) (h : ∀ x ∈ b, x < 256) :
    base64UrlDecode (base64UrlEncode b) = b := by
  show atobList (stripPad (((stripPad (btoaList b)).map substChar).map unsubstChar)) = b
  rw [stripPad_btoaList, List.map_map]
  have hmap : (btoaNoPad b).map (unsubstChar ∘ substChar) = (btoaNoPad b).map id := by
    apply List.map_congr_left
    intro c hc
    exact unsubst_subst_alphabet c (mem_btoaNoPad b c hc)
  rw [hmap, List.map_id]
  rw [stripPad_of_ne_pad _ (fun c hc => alphabet_ne_pad c (mem_btoaNoPad b c hc))]
  exact atob_btoaNoPad b h

theorem encode_data (b : List Nat) :
    (base64UrlEncode b).data = (btoaNoPad b).map substChar := by
  show (stripPad (btoaList b)).map substChar = _
  rw [stripPad_btoaList]

theorem encode_excluded_chars (b : List Nat) :
    ∀ c ∈ (base64UrlEncode b).data, c ≠ '+' ∧ c ≠ '/' ∧ c ≠ '=' ∧ c ≠ '.' := by
  intro c hc
  rw [encode_data] at hc
  rcases List.mem_map.mp hc with ⟨c0, hc0, rfl⟩
  exact subst_alphabet_excluded c0 (mem_btoaNoPad b c0 hc0)

theorem btoaNoPad_ne_nil (b : List Nat) (h : b ≠ []) : btoaNoPad b ≠ [] := by
  match b with
  | [] => exact absurd rfl h
  | [a] => simp [btoaNoPad]
  | [a, c] => simp [btoaNoPad]
  | a :: c :: d :: rest => simp [btoaNoPad]

theorem encode_ne_empty (b : List Nat) (h : b ≠ []) : base64UrlEncode b ≠ "" := by
  intro he
  have hd : (base64UrlEncode b).data = [] := by rw [he]
  rw [encode_data] at hd
  exact btoaNoPad_ne_nil b h (List.map_eq_nil_iff.mp hd)

/-! ## Platform text primitives

`TextEncoder`/`TextDecoder` (UTF-8) and `parseInt`, the JavaScript builtins
the source calls. They are executable models of the platform behaviour the
source relies on: exact on well-formed input; `TextDecoder` replaces invalid
sequences with U+FFFD instead of throwing (its default non-fatal mode). -/

/-- UTF-8 encoding of one code point (`TextEncoder`). -/
def utf8EncodeChar (c : Char) : List Nat :=
  let n := c.toNat
  if n < 0x80 then [n]
  else if n < 0x800 then [0xC0 + n / 64, 0x80 + n % 64]
  else if n < 0x10000 then [0xE0 + n / 4096, 0x80 + n / 64 % 64, 0x80 + n % 64]
  else [0xF0 + n / 262144, 0x80 + n / 4096 % 64, 0x80 + n / 64 % 64, 0x80 + n % 64]

/-- `TextEncoder.encode`. -/
def utf8Encode (s : String) : List Nat :=
  (s.data.map utf8EncodeChar).flatten

/-- The U+FFFD replacement character emitted by `TextDecoder` for
malformed input. -/
def replacementChar : Char := Char.ofNat 0xFFFD

/-- Guard against surrogate / out-of-range code points. -/
def codePointChar (n : Nat) : Char :=
  if n < 0xD800 ∨ (0xE000 ≤ n ∧ n < 0x110000) then Char.ofNat n else replacementChar

/-- Continuation byte test (`10xxxxxx`). -/
def isContByte (b : Nat) : Bool := decide (0x80 ≤ b ∧ b ≤ 0xBF)

/-- One `TextDecoder` step: decoded character and number of extra bytes
consumed after the lead byte. -/
def utf8Step (b0 : Nat) (rest : List Nat) : Char × Nat :=
  if b0 < 0x80 then (Char.ofNat b0, 0)
  else if b0 < 0xC2 then (replacementChar, 0)
  else if b0 < 0xE0 then
    match rest with
    | b1 :: _ =>
      if isContByte b1 then (codePointChar ((b0 - 0xC0) * 64 + (b1 - 0x80)), 1)
      else (replacementChar, 0)
    | [] => (replacementChar, 0)
  else if b0 < 0xF0 then
    match rest with
    | b1 :: b2 :: _ =>
      if isContByte b1 && isContByte b2 then
        (codePointChar ((b0 - 0xE0) * 4096 + (b1 - 0x80) * 64 + (b2 - 0x80)), 2)
      else (replacementChar, 0)
    | _ => (replacementChar, 0)
  else if b0 < 0xF5 then
    match rest with
    | b1 :: b2 :: b3 :: _ =>
      if isContByte b1 && isContByte b2 && isContByte b3 then
        (codePointChar
          ((b0 - 0xF0) * 262144 + (b1 - 0x80) * 4096 + (b2 - 0x80) * 64 + (b3 - 0x80)), 3)
      else (replacementChar, 0)
    | _ => (replacementChar, 0)
  else (replacementChar, 0)

/-- Fuel-driven decoding loop (fuel bounds the number of decoded characters;
each step consumes at least the lead byte, so `bytes.length` is enough). -/
def utf8DecodeAux : Nat → List Nat → List Char
  | 0, _ => []
  | _, [] => []
  | fuel + 1, b0 :: rest =>
    let s := utf8Step b0 rest
    s.1 :: utf8DecodeAux fuel (rest.drop s.2)

/-- `TextDecoder.decode`. -/
def utf8Decode (bytes : List Nat) : String :=
  String.mk (utf8DecodeAux bytes.length bytes)

/-- Decimal digit value. -/
def decDigit (c : Char) : Option Nat :=
  if '0' ≤ c ∧ c ≤ '9' then some (c.toNat - 48) else none

/-- Hexadecimal digit value. -/
def hexDigit (c : Char) : Option Nat :=
  if '0' ≤ c ∧ c ≤ '9' then some (c.toNat - 48)
  else if 'a' ≤ c ∧ c ≤ 'f' then some (c.toNat - 87)
  else if 'A' ≤ c ∧ c ≤ 'F' then some (c.toNat - 55)
  else none

/-- Value of the longest digit prefix, `none` when there is no digit
(the NaN result of `parseInt`). -/
def parseDigits (digit : Char → Option Nat) (radix : Nat) (l : List Char) : Option Nat :=
  let pre := l.takeWhile (fun c => (digit c).isSome)
  if pre = [] then none
  else some (pre.foldl (fun acc c => acc * radix + (digit c).getD 0) 0)

/-- JavaScript `parseInt(s)` (no radix argument): skip leading whitespace,
optional sign, auto-detect a `0x` prefix, parse the longest digit prefix,
ignore everything after it; `none` models `NaN`. -/
def jsParseInt (s : String) : Option Int :=
  let l := s.data.dropWhile (fun c => c.isWhitespace)
  let sign : Int := match l with
    | '-' :: _ => -1
    | _ => 1
  let l2 : List Char := match l with
    | '-' :: t => t
    | '+' :: t => t
    | _ => l
  match l2 with
  | '0' :: x :: t =>
    if x = 'x' ∨ x = 'X' then (parseDigits hexDigit 16 t).map (fun v => sign * (v : Int))
    else (parseDigits decDigit 10 l2).map (fun v => sign * (v : Int))
  | _ => (parseDigits decDigit 10 l2).map (fun v => sign * (v : Int))

/-! ## Record framing helpers (`String.prototype.split('.')`,
`Array.prototype.join('.')`, `Array.prototype.filter(Boolean)`) -/

/-- `value.split('.')` on the character list: every occurrence splits,
empty fields included. -/
def splitOnDot : List Char → List (List Char)
  | [] => [[]]
  | c :: rest =>
    if c = '.' then [] :: splitOnDot rest
    else
      match splitOnDot rest with
      | [] => [[c]]
      | h :: t => (c :: h) :: t

/-- `array.join('.')`. -/
def joinDot : List String → String
  | [] => ""
  | [s] => s
  | s :: rest => s ++ "." ++ joinDot rest

/-- `array.filter(Boolean)` on an array of strings and nulls: drops `null`
and the empty string (the two falsy values that can occur there). -/
def filterBoolean (l : List (Option String)) : List String :=
  l.filterMap fun o => match o with
    | none => none
    | some s => if s = "" then none else some s

theorem splitOnDot_ne_nil (l : List Char) : splitOnDot l ≠ [] := by
  induction l with
  | nil => simp [splitOnDot]
  | cons c rest ih =>
    by_cases hc : c = '.'
    · simp [splitOnDot, hc]
    · simp only [splitOnDot, if_neg hc]
      match h : splitOnDot rest with
      | [] => simp
      | h' :: t => simp

theorem splitOnDot_no_dot (l : List Char) (h : ∀ c ∈ l, c ≠ '.') :
    splitOnDot l = [l] := by
  induction l with
  | nil => rfl
  | cons c rest ih =>
    have hc : ¬ c = '.' := h c (by simp)
    have ih2 := ih (fun x hx => h x (by simp [hx]))
    simp only [splitOnDot, if_neg hc, ih2]

theorem splitOnDot_append (a rest : List Char) (h : ∀ c ∈ a, c ≠ '.') :
    splitOnDot (a ++ '.' :: rest) = a :: splitOnDot rest := by
  induction a with
  | nil => simp [splitOnDot]
  | cons c t ih =>
    have hc : ¬ c = '.' := h c (by simp)
    have ih2 := ih (fun x hx => h x (by simp [hx]))
    simp only [List.cons_append, splitOnDot, if_neg hc, List.append_eq, ih2]

/-! ## Data model (`src/index.ts`) -/

/-- Execution environment capabilities: `typeof window !== 'undefined'` and
`'crypto' in window`. -/
structure JSEnv where
  hasWindow : Bool
  hasCrypto : Bool
deriving DecidableEq

/-- The black-box platform crypto collaborators (`window.crypto.subtle`):
SHA-512, and AES-GCM encrypt/decrypt taking (key, iv, optional
additionalData, data); decrypt rejects on authentication failure. -/
structure CipherOps where
  sha512 : List Nat → List Nat
  encrypt : List Nat → List Nat → Option (List Nat) → List Nat → List Nat
  decrypt : List Nat → List Nat → Option (List Nat) → List Nat → Except Unit (List Nat)

/-- `window.localStorage` as an association list. -/
abbrev Storage := List (String × String)

/-- `localStorage.getItem`. -/
def Storage.get (storage : Storage) (k : String) : Option String :=
  (storage.find? (fun e => e.1 == k)).map (fun e => e.2)

/-- `localStorage.setItem`. -/
def Storage.set (storage : Storage) (k v : String) : Storage :=
  (k, v) :: storage.filter (fun e => !(e.1 == k))

/-- `localStorage.removeItem`. -/
def Storage.remove (storage : Storage) (k : String) : Storage :=
  storage.filter (fun e => !(e.1 == k))

/-- The `#internalState` tagged variant: `idle`, or `loaded` with the
storage key and the imported AES-GCM key material. -/
inductive InternalState where
  | idle
  | loaded (storageKey : String) (encryptionKey : List Nat)
deriving DecidableEq

/-- The single error `setup` can throw: `encryptionKey` does not decode to
exactly 32 bytes. -/
inductive SetupError where
  | configError
deriving DecidableEq

/-- Errors that can arise on the read path (`decryptState` and callers). -/
inductive DecryptError where
  /-- `LocalStateSync is not ready`. -/
  | notReady
  /-- `base64UrlDecode(undefined)`: fewer than two dot-separated fields. -/
  | typeError
  /-- `crypto.subtle.decrypt` rejected (AEAD authentication failure). -/
  | authFailure
  /-- `Persisted state expired`. -/
  | expired
  /-- the caller-supplied state parser threw. -/
  | parseError
deriving DecidableEq

/-- Results of the write-path operations `setState` / `clearState`:
the Node.js console warning (disabled environment), success, or the
thrown `LocalStateSync is not ready` error. -/
inductive WriteResult where
  | disabledWarning
  | success
  | notReadyError
deriving DecidableEq

/-! ## Operations (`src/index.ts`) -/

/-- `hash`: SHA-512 truncated to the first 256 bits of output. -/
def hashTrunc (ops : CipherOps) (input : List Nat) : List Nat :=
  (ops.sha512 input).take 32

/-- `concat` from `src/index.ts`. -/
def concatBytes (a b : List Nat) : List Nat := a ++ b

/-- `setup`: environment checks, key decoding and length check, key
derivation (`hash(concat(baseKey, namespace))`), storage key computation
(`base64UrlEncode(hash(keyBuffer))`), transition to `loaded`. -/
def setup (ops : CipherOps) (env : JSEnv) (ns : String) (encodedEncryptionKey : String) :
    Except SetupError InternalState :=
  if env.hasWindow = false then .ok .idle
  else if env.hasCrypto = false then .ok .idle
  else
    let baseKey := base64UrlDecode encodedEncryptionKey
    if baseKey.length ≠ 32 then .error .configError
    else
      let nsBytes := utf8Encode ns
      let keyBuffer := hashTrunc ops (concatBytes baseKey nsBytes)
      let storageKey := base64UrlEncode (hashTrunc ops keyBuffer)
      .ok (.loaded storageKey keyBuffer)

/-- `encryptState`: optional expiration as UTF-8 bytes of the decimal
`(Date.now() + ttl).toFixed()` passed as associated data, fresh `iv`
supplied by the caller's random source, and the dot-joined,
`filter(Boolean)`-ed record. -/
def encryptState {σ : Type} (ops : CipherOps) (serializeState : σ → String) (now : Int)
    (iv : List Nat) (ist : InternalState) (state : σ) (ttl : Int) :
    Except DecryptError String :=
  match ist with
  | .idle => .error .notReady
  | .loaded _ encryptionKey =>
    let expirationTime : Option (List Nat) :=
      if ttl ≤ 0 then none else some (utf8Encode (toString (now + ttl)))
    let ciphertext :=
      ops.encrypt encryptionKey iv expirationTime (utf8Encode (serializeState state))
    .ok (joinDot (filterBoolean
      [some (base64UrlEncode iv), some (base64UrlEncode ciphertext),
        expirationTime.map base64UrlEncode]))

/-- `clearState`: warn-and-return without a window, throw when not loaded,
otherwise `localStorage.removeItem(storageKey)`. -/
def clearState (env : JSEnv) (ist : InternalState) (storage : Storage) :
    WriteResult × Storage :=
  if env.hasWindow = false then (.disabledWarning, storage)
  else match ist with
  | .idle => (.notReadyError, storage)
  | .loaded storageKey _ => (.success, Storage.remove storage storageKey)

/-- The expiration test of `decryptState`:
`expirationTime && parseInt(decoder.decode(expirationTime)) < Date.now()`
(`parseInt` returning `NaN` makes the comparison false). -/
def expiredCheck (expirationTime : Option (List Nat)) (now : Int) : Bool :=
  match expirationTime with
  | none => false
  | some e =>
    match jsParseInt (utf8Decode e) with
    | none => false
    | some n => decide (n < now)

/-- `decryptState`: split on `.` into (up to) three fields, treat a missing
or empty third field as no associated data, decrypt, check expiration
(clearing the stored record and throwing when expired), then hand the
decoded cleartext to the state parser. -/
def decryptState {σ : Type} (ops : CipherOps) (env : JSEnv)
    (parseState : String → Except Unit σ) (now : Int) (ist : InternalState)
    (storage : Storage) (storageValue : String) : Except DecryptError σ × Storage :=
  match ist with
  | .idle => (.error .notReady, storage)
  | .loaded storageKey encryptionKey =>
    let fields := splitOnDot storageValue.data
    match fields.get? 1 with
    | none => (.error .typeError, storage)
    | some ctField =>
      let ivField := fields.getD 0 []
      let expField := fields.getD 2 []
      let expirationTime : Option (List Nat) :=
        if expField = [] then none else some (base64UrlDecodeChars expField)
      match ops.decrypt encryptionKey (base64UrlDecodeChars ivField) expirationTime
          (base64UrlDecodeChars ctField) with
      | .error _ => (.error .authFailure, storage)
      | .ok cleartext =>
        if expiredCheck expirationTime now then
          (.error .expired,
            (clearState env (.loaded storageKey encryptionKey) storage).2)
        else
          match parseState (utf8Decode cleartext) with
          | .ok s => (.ok s, storage)
          | .error _ => (.error .parseError, storage)

/-- `setState`: warn-and-return without a window, throw when not loaded,
otherwise encrypt (per-call ttl falling back to the configured default)
and `localStorage.setItem`. -/
def setState {σ : Type} (ops : CipherOps) (env : JSEnv) (serializeState : σ → String)
    (defaultTTL : Int) (now : Int) (iv : List Nat) (ist : InternalState)
    (storage : Storage) (state : σ) (ttlOption : Option Int) : WriteResult × Storage :=
  if env.hasWindow = false then (.disabledWarning, storage)
  else match ist with
  | .idle => (.notReadyError, storage)
  | .loaded storageKey encryptionKey =>
    match encryptState ops serializeState now iv (.loaded storageKey encryptionKey)
        state (ttlOption.getD defaultTTL) with
    | .ok encryptedState => (.success, Storage.set storage storageKey encryptedState)
    | .error _ => (.notReadyError, storage)

/-- `loadFromLocalStorage`: read any existing record, decrypt it and invoke
the callback, absorbing every failure (`try { ... } catch {}`). The first
component is `.ok (some s)` when the callback is invoked with `s`,
`.ok none` when it is not; it is an `Except` so that "no exception escapes"
is a statement, not a typing accident. -/
def loadFromLocalStorage {σ : Type} (ops : CipherOps) (env : JSEnv)
    (parseState : String → Except Unit σ) (now : Int) (ist : InternalState)
    (storage : Storage) : Except DecryptError (Option σ) × Storage :=
  match ist with
  | .idle => (.ok none, storage)
  | .loaded storageKey encryptionKey =>
    match Storage.get storage storageKey with
    | none => (.ok none, storage)
    | some value =>
      if value = "" then (.ok none, storage)
      else
        match decryptState ops env parseState now (.loaded storageKey encryptionKey)
            storage value with
        | (.ok s, storage') => (.ok (some s), storage')
        | (.error _, storage') => (.ok none, storage')

/-- `handleStorageEvent`: ignore events while idle, for other keys, or with
an absent/empty new value; otherwise decrypt and dispatch, absorbing every
failure identically to the initial load. -/
def handleStorageEvent {σ : Type} (ops : CipherOps) (env : JSEnv)
    (parseState : String → Except Unit σ) (now : Int) (ist : InternalState)
    (storage : Storage) (eventKey : Option String) (newValue : Option String) :
    Except DecryptError (Option σ) × Storage :=
  match ist with
  | .idle => (.ok none, storage)
  | .loaded storageKey encryptionKey =>
    match newValue with
    | none => (.ok none, storage)
    | some value =>
      if eventKey = some storageKey ∧ value ≠ "" then
        match decryptState ops env parseState now (.loaded storageKey encryptionKey)
            storage value with
        | (.ok s, storage') => (.ok (some s), storage')
        | (.error _, storage') => (.ok none, storage')
      else (.ok none, storage)

/-! ## Auxiliary facts used by the claim theorems -/

instance {ε α : Type} [DecidableEq ε] [DecidableEq α] : DecidableEq (Except ε α)
  | .ok x, .ok y =>
    if h : x = y then isTrue (congrArg Except.ok h)
    else isFalse (fun he => h (Except.ok.inj he))
  | .error x, .error y =>
    if h : x = y then isTrue (congrArg Except.error h)
    else isFalse (fun he => h (Except.error.inj he))
  | .ok _, .error _ => isFalse (fun he => Except.noConfusion he)
  | .error _, .ok _ => isFalse (fun he => Except.noConfusion he)

theorem toDigitsCore_ne_nil (b : Nat) :
    ∀ (fuel n : Nat) (ds : List Char), ds ≠ [] → Nat.toDigitsCore b fuel n ds ≠ []
  | 0, _, _, h => h
  | fuel + 1, n, ds, _ => by
    simp only [Nat.toDigitsCore]
    split
    · simp
    · exact toDigitsCore_ne_nil b fuel _ _ (by simp)

theorem toDigits_ne_nil (b n : Nat) : Nat.toDigits b n ≠ [] := by
  unfold Nat.toDigits
  simp only [Nat.toDigitsCore]
  split
  · simp
  · exact toDigitsCore_ne_nil b n _ _ (by simp)

theorem nat_repr_ne_empty (n : Nat) : Nat.repr n ≠ "" := by
  intro he
  have hd : (Nat.repr n).data = [] := by rw [he]
  exact toDigits_ne_nil 10 n hd

theorem int_toString_ne_empty (i : Int) : toString i ≠ "" := by
  match i with
  | .ofNat m => exact nat_repr_ne_empty m
  | .negSucc m =>
    intro he
    have hd : (toString (Int.negSucc m)).data = [] := by rw [he]
    have : (toString (Int.negSucc m)).data = '-' :: (Nat.repr (m + 1)).data := by
      show (("-" : String) ++ Nat.repr (m + 1)).data = _
      rw [String.data_append]
      rfl
    rw [this] at hd
    exact List.noConfusion hd

theorem utf8EncodeChar_ne_nil (c : Char) : utf8EncodeChar c ≠ [] := by
  unfold utf8EncodeChar
  dsimp only
  split_ifs <;> simp

theorem utf8Encode_ne_nil (s : String) (h : s ≠ "") : utf8Encode s ≠ [] := by
  match s with
  | ⟨[]⟩ => exact absurd rfl h
  | ⟨c :: t⟩ =>
    show utf8EncodeChar c ++ (t.map utf8EncodeChar).flatten ≠ []
    intro he
    exact utf8EncodeChar_ne_nil c (List.append_eq_nil.mp he).1

theorem string_ne_empty_iff_data (s : String) : s ≠ "" ↔ s.data ≠ [] := by
  constructor
  · intro h hd
    exact h (by cases s with | mk d => cases hd; rfl)
  · intro h he
    exact h (by rw [he])

theorem encode_ne_dot (b : List Nat) : ∀ c ∈ (base64UrlEncode b).data, c ≠ '.' :=
  fun c hc => (encode_excluded_chars b c hc).2.2.2

theorem split_two_fields (a b : String)
    (ha : ∀ c ∈ a.data, c ≠ '.') (hb : ∀ c ∈ b.data, c ≠ '.') :
    splitOnDot (a ++ "." ++ b).data = [a.data, b.data] := by
  rw [String.data_append, String.data_append]
  rw [show ("." : String).data = ['.'] from rfl, List.append_assoc]
  rw [show (['.'] ++ b.data : List Char) = '.' :: b.data from rfl]
  rw [splitOnDot_append _ _ ha, splitOnDot_no_dot _ hb]

theorem split_three_fields (a b c : String)
    (ha : ∀ x ∈ a.data, x ≠ '.') (hb : ∀ x ∈ b.data, x ≠ '.')
    (hc : ∀ x ∈ c.data, x ≠ '.') :
    splitOnDot (a ++ "." ++ b ++ "." ++ c).data = [a.data, b.data, c.data] := by
  rw [show a ++ "." ++ b ++ "." ++ c = a ++ "." ++ (b ++ "." ++ c) by
    simp [String.append_assoc]]
  rw [String.data_append, String.data_append]
  rw [show ("." : String).data = ['.'] from rfl, List.append_assoc]
  rw [show (['.'] ++ (b ++ "." ++ c).data : List Char) = '.' :: (b ++ "." ++ c).data from rfl]
  rw [splitOnDot_append _ _ ha, split_two_fields b c hb hc]

/-! ## Concrete instantiations used by the witnesses -/

/-- Concrete black-box crypto used to instantiate witnesses: any total
functions of the right type will do. -/
def opsW : CipherOps where
  sha512 := fun l => l ++ List.replicate 64 7
  encrypt := fun _ _ _ pt => 0 :: pt
  decrypt := fun _ _ _ ct => .ok ct

/-- A concrete 32-byte secret. -/
def secretW : List Nat := List.range 32

/-! ## Claims -/

/-- C7: for every byte sequence b (bytes below 256), decoding the encoding
gives back b, and the encoder output contains none of the characters
`+`, `/`, `=`. -/
theorem c7_codec_roundtrip (b : List Nat) (h : ∀ x ∈ b, x < 256) :
    base64UrlDecode (base64UrlEncode b) = b ∧
      ∀ c ∈ (base64UrlEncode b).data, c ≠ '+' ∧ c ≠ '/' ∧ c ≠ '=' := by
  refine ⟨decode_encode_aux b h, ?_⟩
  intro c hc
  have hx := encode_excluded_chars b c hc
  exact ⟨hx.1, hx.2.1, hx.2.2.1⟩

/-- C7 witness: the round-trip evaluated on a concrete input whose encoding
contains both URL-safe substitution characters. -/
theorem c7_codec_roundtrip_witness :
    (∀ x ∈ [251, 255], x < 256) ∧
      '-' ∈ (base64UrlEncode [251, 255]).data ∧
      '_' ∈ (base64UrlEncode [251, 255]).data ∧
      (base64UrlDecode (base64UrlEncode [251, 255]) = [251, 255] ∧
        ∀ c ∈ (base64UrlEncode [251, 255]).data, c ≠ '+' ∧ c ≠ '/' ∧ c ≠ '=') :=
  ⟨by decide, by decide, by decide, c7_codec_roundtrip [251, 255] (by decide)⟩

/-- C1: for every 32-byte secret and namespace, in a capable environment,
setup derives the cipher key as the first 32 bytes of SHA-512 over the
secret concatenated with the UTF-8 namespace bytes, and the storage
identifier as the base64url encoding of the first 32 bytes of SHA-512 of
that derived key; both are computed by a pure function of (secret,
namespace). -/
theorem c1_key_derivation (ops : CipherOps) (secret : List Nat) (ns : String)
    (hlen : secret.length = 32) (hbytes : ∀ x ∈ secret, x < 256) :
    setup ops ⟨true, true⟩ ns (base64UrlEncode secret) =
      .ok (.loaded
        (base64UrlEncode
          ((ops.sha512 ((ops.sha512 (secret ++ utf8Encode ns)).take 32)).take 32))
        ((ops.sha512 (secret ++ utf8Encode ns)).take 32)) := by
  have hdec : base64UrlDecode (base64UrlEncode secret) = secret :=
    decode_encode_aux secret hbytes
  unfold setup hashTrunc concatBytes
  rw [hdec]
  simp [hlen]

/-- C1 witness: setup evaluated on a concrete secret and namespace. -/
theorem c1_key_derivation_witness :
    secretW.length = 32 ∧ (∀ x ∈ secretW, x < 256) ∧
      setup opsW ⟨true, true⟩ "ns" (base64UrlEncode secretW) =
        .ok (.loaded
          (base64UrlEncode
            ((opsW.sha512 ((opsW.sha512 (secretW ++ utf8Encode "ns")).take 32)).take 32))
          ((opsW.sha512 (secretW ++ utf8Encode "ns")).take 32)) :=
  ⟨by decide, by decide, c1_key_derivation opsW secretW "ns" (by decide) (by decide)⟩

/-- C4: while idle with a window present, setState and clearState both
fail with the not-ready error and leave storage unchanged. -/
theorem c4_not_ready_error {σ : Type} (ops : CipherOps) (env : JSEnv)
    (serializeState : σ → String) (defaultTTL now : Int) (iv : List Nat)
    (storage : Storage) (state : σ) (ttlOption : Option Int)
    (hw : env.hasWindow = true) :
    setState ops env serializeState defaultTTL now iv .idle storage state ttlOption =
      (.notReadyError, storage) ∧
    clearState env .idle storage = (.notReadyError, storage) := by
  constructor
  · unfold setState
    rw [hw]
    simp
  · unfold clearState
    rw [hw]
    simp

/-- C4 witness: evaluated in a concrete window-present environment. -/
theorem c4_not_ready_error_witness :
    (JSEnv.mk true true).hasWindow = true ∧
      setState opsW ⟨true, true⟩ (fun s : String => s) 0 0 [] .idle [] "s" none =
        (.notReadyError, []) ∧
      clearState ⟨true, true⟩ .idle [] = (.notReadyError, []) :=
  ⟨rfl, c4_not_ready_error opsW ⟨true, true⟩ (fun s => s) 0 0 [] [] "s" none rfl⟩

/-- C8: for a loaded instance, a storage event whose key differs from the
storage identifier or whose new value is absent is ignored: callback not
invoked, storage untouched. -/
theorem c8_event_filtering {σ : Type} (ops : CipherOps) (env : JSEnv)
    (parseState : String → Except Unit σ) (now : Int) (storageKey : String)
    (encryptionKey : List Nat) (storage : Storage) (eventKey : Option String)
    (newValue : Option String)
    (h : eventKey ≠ some storageKey ∨ newValue = none) :
    handleStorageEvent ops env parseState now (.loaded storageKey encryptionKey)
      storage eventKey newValue = (.ok none, storage) := by
  unfold handleStorageEvent
  match newValue with
  | none => simp
  | some v =>
    rcases h with h | h
    · simp [h]
    · exact Option.noConfusion h

/-- C8 witness: a mismatching key event evaluated concretely. -/
theorem c8_event_filtering_witness :
    ((some "other" : Option String) ≠ some "k" ∨ (some "v" : Option String) = none) ∧
      handleStorageEvent opsW ⟨true, true⟩ (fun s => Except.ok s) 0
        (.loaded "k" []) [] (some "other") (some "v") = (.ok none, []) :=
  ⟨by decide,
    c8_event_filtering opsW ⟨true, true⟩ (fun s => Except.ok s) 0 "k" [] []
      (some "other") (some "v") (by decide)⟩

/-- C10: a stored value whose three-way split has an empty third field is
decrypted exactly like the corresponding two-field value: no associated
data, no expiration check. -/
theorem c10_empty_third_field {σ : Type} (ops : CipherOps) (env : JSEnv)
    (parseState : String → Except Unit σ) (now : Int) (storageKey : String)
    (encryptionKey : List Nat) (storage : Storage) (v1 v2 : String)
    (ivF ctF : List Char)
    (h1 : splitOnDot v1.data = [ivF, ctF, []])
    (h2 : splitOnDot v2.data = [ivF, ctF]) :
    decryptState ops env parseState now (.loaded storageKey encryptionKey) storage v1 =
      decryptState ops env parseState now (.loaded storageKey encryptionKey) storage v2 := by
  unfold decryptState
  rw [h1, h2]
  rfl

/-- C10 witness: `AA.AA.` decrypts exactly like `AA.AA`. -/
theorem c10_empty_third_field_witness :
    splitOnDot "AA.AA.".data = [['A', 'A'], ['A', 'A'], []] ∧
      splitOnDot "AA.AA".data = [['A', 'A'], ['A', 'A']] ∧
      decryptState opsW ⟨true, true⟩ (fun s => Except.ok s) 0 (.loaded "k" []) []
          "AA.AA." =
        decryptState opsW ⟨true, true⟩ (fun s => Except.ok s) 0 (.loaded "k" []) []
          "AA.AA" :=
  ⟨by decide, by decide,
    c10_empty_third_field opsW ⟨true, true⟩ (fun s => Except.ok s) 0 "k" [] []
      "AA.AA." "AA.AA" ['A', 'A'] ['A', 'A'] (by decide) (by decide)⟩

/-- C2: encryptState framing. With TTL <= 0 no associated data is passed
and the output is exactly two dot-separated base64url fields (IV then
ciphertext, no trailing empty field); with TTL > 0 the UTF-8 bytes of the
decimal string of (now + TTL) are passed as associated data and the output
is exactly three fields whose third is the base64url encoding of those
bytes. Hypotheses: the IV is nonempty (the source always supplies 12 random
bytes) and the cipher output is nonempty (AES-GCM always appends a 16-byte
tag). -/
theorem c2_encrypt_framing {σ : Type} (ops : CipherOps) (serializeState : σ → String)
    (now : Int) (iv : List Nat) (storageKey : String) (encryptionKey : List Nat)
    (state : σ) (ttl : Int)
    (hiv : iv ≠ [])
    (hct1 : ops.encrypt encryptionKey iv none (utf8Encode (serializeState state)) ≠ [])
    (hct2 : ops.encrypt encryptionKey iv (some (utf8Encode (toString (now + ttl))))
        (utf8Encode (serializeState state)) ≠ []) :
    (ttl ≤ 0 →
      encryptState ops serializeState now iv (.loaded storageKey encryptionKey)
          state ttl =
        .ok (base64UrlEncode iv ++ "." ++
          base64UrlEncode
            (ops.encrypt encryptionKey iv none (utf8Encode (serializeState state)))) ∧
      splitOnDot (base64UrlEncode iv ++ "." ++
          base64UrlEncode
            (ops.encrypt encryptionKey iv none
              (utf8Encode (serializeState state)))).data =
        [(base64UrlEncode iv).data,
          (base64UrlEncode
            (ops.encrypt encryptionKey iv none
              (utf8Encode (serializeState state)))).data]) ∧
    (0 < ttl →
      encryptState ops serializeState now iv (.loaded storageKey encryptionKey)
          state ttl =
        .ok (base64UrlEncode iv ++ "." ++
          base64UrlEncode
            (ops.encrypt encryptionKey iv (some (utf8Encode (toString (now + ttl))))
              (utf8Encode (serializeState state))) ++ "." ++
          base64UrlEncode (utf8Encode (toString (now + ttl)))) ∧
      splitOnDot (base64UrlEncode iv ++ "." ++
          base64UrlEncode
            (ops.encrypt encryptionKey iv (some (utf8Encode (toString (now + ttl))))
              (utf8Encode (serializeState state))) ++ "." ++
          base64UrlEncode (utf8Encode (toString (now + ttl)))).data =
        [(base64UrlEncode iv).data,
          (base64UrlEncode
            (ops.encrypt encryptionKey iv (some (utf8Encode (toString (now + ttl))))
              (utf8Encode (serializeState state)))).data,
          (base64UrlEncode (utf8Encode (toString (now + ttl)))).data]) := by
  have hivne : base64UrlEncode iv ≠ "" := encode_ne_empty iv hiv
  have hctne1 : base64UrlEncode
      (ops.encrypt encryptionKey iv none (utf8Encode (serializeState state))) ≠ "" :=
    encode_ne_empty _ hct1
  have hctne2 : base64UrlEncode
      (ops.encrypt encryptionKey iv (some (utf8Encode (toString (now + ttl))))
        (utf8Encode (serializeState state))) ≠ "" :=
    encode_ne_empty _ hct2
  have hexpne : base64UrlEncode (utf8Encode (toString (now + ttl))) ≠ "" :=
    encode_ne_empty _ (utf8Encode_ne_nil _ (int_toString_ne_empty _))
  constructor
  · intro httl
    constructor
    · unfold encryptState
      rw [if_pos httl]
      simp only [Option.map_none]
      simp [filterBoolean, joinDot, hivne, hctne1]
    · exact split_two_fields _ _ (encode_ne_dot _) (encode_ne_dot _)
  · intro httl
    constructor
    · unfold encryptState
      rw [if_neg (by omega : ¬ ttl ≤ 0)]
      simp only [Option.map_some]
      simp [filterBoolean, joinDot, hivne, hctne2, hexpne, String.append_assoc]
    · exact split_three_fields _ _ _ (encode_ne_dot _) (encode_ne_dot _) (encode_ne_dot _)

/-- C2 witness: a TTL of 0 yields the two-field record and a TTL of 5 the
three-field record, evaluated concretely. -/
theorem c2_encrypt_framing_witness :
    ([0] : List Nat) ≠ [] ∧
      opsW.encrypt [] [0] none (utf8Encode "s") ≠ [] ∧
      opsW.encrypt [] [0] (some (utf8Encode (toString ((3 : Int) + 5))))
        (utf8Encode "s") ≠ [] ∧
      encryptState opsW (fun s : String => s) 3 [0] (.loaded "k" []) "s" 0 =
        .ok (base64UrlEncode [0] ++ "." ++
          base64UrlEncode (opsW.encrypt [] [0] none (utf8Encode "s"))) ∧
      encryptState opsW (fun s : String => s) 3 [0] (.loaded "k" []) "s" 5 =
        .ok (base64UrlEncode [0] ++ "." ++
          base64UrlEncode (opsW.encrypt [] [0]
            (some (utf8Encode (toString ((3 : Int) + 5)))) (utf8Encode "s")) ++ "." ++
          base64UrlEncode (utf8Encode (toString ((3 : Int) + 5)))) :=
  ⟨by decide, by decide, by decide,
    ((c2_encrypt_framing opsW (fun s => s) 3 [0] "k" [] "s" 0
      (by decide) (by decide) (by decide)).1 (by decide)).1,
    ((c2_encrypt_framing opsW (fun s => s) 3 [0] "k" [] "s" 5
      (by decide) (by decide) (by decide)).2 (by decide)).1⟩

/-- C3: a record that splits into three fields, authenticates under its
expiration bytes as associated data, and whose expiration parses to an
integer in the past, makes decryptState remove the stored record (in a
window-capable context) and fail with the expired error — a constructor
distinct from the authentication failure — without consulting the state
parser (the conclusion holds for every parser). -/
theorem c3_expired_record {σ : Type} (ops : CipherOps) (hc : Bool)
    (parseState : String → Except Unit σ) (now : Int) (storageKey : String)
    (encryptionKey : List Nat) (storage : Storage) (storageValue : String)
    (ivF ctF expF : List Char) (pt : List Nat) (n : Int)
    (hsplit : splitOnDot storageValue.data = [ivF, ctF, expF])
    (hexp : expF ≠ [])
    (hdec : ops.decrypt encryptionKey (base64UrlDecodeChars ivF)
        (some (base64UrlDecodeChars expF)) (base64UrlDecodeChars ctF) = .ok pt)
    (hpi : jsParseInt (utf8Decode (base64UrlDecodeChars expF)) = some n)
    (hn : n < now) :
    decryptState ops ⟨true, hc⟩ parseState now (.loaded storageKey encryptionKey)
        storage storageValue =
      (.error .expired, Storage.remove storage storageKey) ∧
    DecryptError.expired ≠ DecryptError.authFailure := by
  refine ⟨?_, by decide⟩
  unfold decryptState
  rw [hsplit]
  simp only [List.get?, List.getD, Option.getD_some]
  rw [if_neg hexp, hdec]
  have hcheck : expiredCheck (some (base64UrlDecodeChars expF)) now = true := by
    show (match jsParseInt (utf8Decode (base64UrlDecodeChars expF)) with
      | none => false
      | some m => decide (m < now)) = true
    rw [hpi]
    exact decide_eq_true hn
  rw [hcheck]
  simp [clearState]

/-- C3 witness: the record `AA.AA.NQ` (expiration bytes decode to the
string `5`) decrypted at time 10 under a decrypt-accepting cipher. -/
theorem c3_expired_record_witness :
    splitOnDot "AA.AA.NQ".data = [['A', 'A'], ['A', 'A'], ['N', 'Q']] ∧
      (['N', 'Q'] : List Char) ≠ [] ∧
      opsW.decrypt [] (base64UrlDecodeChars ['A', 'A'])
        (some (base64UrlDecodeChars ['N', 'Q'])) (base64UrlDecodeChars ['A', 'A']) =
        .ok [0] ∧
      jsParseInt (utf8Decode (base64UrlDecodeChars ['N', 'Q'])) = some 5 ∧
      (5 : Int) < 10 ∧
      (decryptState opsW ⟨true, true⟩ (fun s => Except.ok s) 10 (.loaded "k" [])
          [("k", "AA.AA.NQ")] "AA.AA.NQ" =
        (.error .expired, Storage.remove [("k", "AA.AA.NQ")] "k") ∧
        DecryptError.expired ≠ DecryptError.authFailure) :=
  ⟨by decide, by decide, by decide, by decide, by decide,
    c3_expired_record opsW true (fun s => Except.ok s) 10 "k" [] [("k", "AA.AA.NQ")]
      "AA.AA.NQ" ['A', 'A'] ['A', 'A'] ['N', 'Q'] [0] 5
      (by decide) (by decide) (by decide) (by decide) (by decide)⟩

/-- C9: a three-field record whose expiration bytes decode to a string that
does not parse as an integer (parseInt gives NaN) is treated as never
expired: given successful authentication, decryption completes into the
parser, storage is untouched, and no expired error is raised, for any
current time. -/
theorem c9_unparseable_expiration {σ : Type} (ops : CipherOps) (env : JSEnv)
    (parseState : String → Except Unit σ) (now : Int) (storageKey : String)
    (encryptionKey : List Nat) (storage : Storage) (storageValue : String)
    (ivF ctF expF : List Char) (pt : List Nat)
    (hsplit : splitOnDot storageValue.data = [ivF, ctF, expF])
    (hexp : expF ≠ [])
    (hdec : ops.decrypt encryptionKey (base64UrlDecodeChars ivF)
        (some (base64UrlDecodeChars expF)) (base64UrlDecodeChars ctF) = .ok pt)
    (hpi : jsParseInt (utf8Decode (base64UrlDecodeChars expF)) = none) :
    decryptState ops env parseState now (.loaded storageKey encryptionKey)
        storage storageValue =
      ((match parseState (utf8Decode pt) with
        | .ok s => Except.ok s
        | .error _ => Except.error DecryptError.parseError), storage) ∧
    (decryptState ops env parseState now (.loaded storageKey encryptionKey)
        storage storageValue).1 ≠ .error .expired := by
  have hcheck : expiredCheck (some (base64UrlDecodeChars expF)) now = false := by
    show (match jsParseInt (utf8Decode (base64UrlDecodeChars expF)) with
      | none => false
      | some m => decide (m < now)) = false
    rw [hpi]
  have hmain : decryptState ops env parseState now
      (.loaded storageKey encryptionKey) storage storageValue =
      ((match parseState (utf8Decode pt) with
        | .ok s => Except.ok s
        | .error _ => Except.error DecryptError.parseError), storage) := by
    unfold decryptState
    rw [hsplit]
    simp only [List.get?, List.getD, Option.getD_some]
    rw [if_neg hexp, hdec, hcheck]
    simp only [Bool.false_eq_true, if_false]
    cases hps : parseState (utf8Decode pt) with
    | ok s => simp
    | error e => simp
  refine ⟨hmain, ?_⟩
  rw [hmain]
  cases hps : parseState (utf8Decode pt) with
  | ok s => simp
  | error e => simp

/-- C9 witness: the record `AA.AA.YQ`, whose expiration bytes decode to the
non-numeric string `a`, decrypted concretely. -/
theorem c9_unparseable_expiration_witness :
    splitOnDot "AA.AA.YQ".data = [['A', 'A'], ['A', 'A'], ['Y', 'Q']] ∧
      (['Y', 'Q'] : List Char) ≠ [] ∧
      opsW.decrypt [] (base64UrlDecodeChars ['A', 'A'])
        (some (base64UrlDecodeChars ['Y', 'Q'])) (base64UrlDecodeChars ['A', 'A']) =
        .ok [0] ∧
      jsParseInt (utf8Decode (base64UrlDecodeChars ['Y', 'Q'])) = none ∧
      (decryptState opsW ⟨true, true⟩ (fun s => Except.ok s) 10 (.loaded "k" [])
          [] "AA.AA.YQ" =
        ((match (fun s => (Except.ok s : Except Unit String)) (utf8Decode [0]) with
          | .ok s => Except.ok s
          | .error _ => Except.error DecryptError.parseError), []) ∧
        (decryptState opsW ⟨true, true⟩ (fun s => (Except.ok s : Except Unit String)) 10
          (.loaded "k" []) [] "AA.AA.YQ").1 ≠ .error .expired) :=
  ⟨by decide, by decide, by decide, by decide,
    c9_unparseable_expiration opsW ⟨true, true⟩ (fun s => Except.ok s) 10 "k" [] []
      "AA.AA.YQ" ['A', 'A'] ['A', 'A'] ['Y', 'Q'] [0]
      (by decide) (by decide) (by decide) (by decide)⟩

/-- C5: the read paths never propagate an exception — both loadFromLocal
Storage and handleStorageEvent always return an `.ok` result — and when
decryptState fails for the stored/notified value (for any reason:
authentication, expiration, type error or parse failure), the callback is
not invoked: the result is `.ok none`, with whatever storage decryptState
left behind. -/
theorem c5_read_paths_absorbed {σ : Type} (ops : CipherOps) (env : JSEnv)
    (parseState : String → Except Unit σ) (now : Int) (ist : InternalState)
    (storage : Storage) (eventKey : Option String) (newValue : Option String) :
    (loadFromLocalStorage ops env parseState now ist storage).1.isOk = true ∧
    (handleStorageEvent ops env parseState now ist storage eventKey
      newValue).1.isOk = true ∧
    (∀ storageKey encryptionKey v e storage',
      ist = .loaded storageKey encryptionKey →
      Storage.get storage storageKey = some v → v ≠ "" →
      decryptState ops env parseState now ist storage v = (.error e, storage') →
      loadFromLocalStorage ops env parseState now ist storage =
        (.ok none, storage')) ∧
    (∀ storageKey encryptionKey v e storage',
      ist = .loaded storageKey encryptionKey →
      eventKey = some storageKey → newValue = some v → v ≠ "" →
      decryptState ops env parseState now ist storage v = (.error e, storage') →
      handleStorageEvent ops env parseState now ist storage eventKey newValue =
        (.ok none, storage')) := by
  refine ⟨?_, ?_, ?_, ?_⟩
  · cases ist with
    | idle => rfl
    | loaded sk ek =>
      cases hsg : Storage.get storage sk with
      | none => simp [loadFromLocalStorage, hsg, Except.isOk, Except.toBool]
      | some v =>
        by_cases hv : v = ""
        · simp [loadFromLocalStorage, hsg, hv, Except.isOk, Except.toBool]
        · rcases hd : decryptState ops env parseState now (.loaded sk ek) storage v
            with ⟨r, st'⟩
          cases r with
          | ok s => simp [loadFromLocalStorage, hsg, hv, hd, Except.isOk, Except.toBool]
          | error e => simp [loadFromLocalStorage, hsg, hv, hd, Except.isOk, Except.toBool]
  · cases ist with
    | idle => rfl
    | loaded sk ek =>
      cases newValue with
      | none => rfl
      | some v =>
        by_cases hcond : eventKey = some sk ∧ v ≠ ""
        · rcases hd : decryptState ops env parseState now (.loaded sk ek) storage v
            with ⟨r, st'⟩
          cases r with
          | ok s => simp [handleStorageEvent, hcond, hd, Except.isOk, Except.toBool]
          | error e => simp [handleStorageEvent, hcond, hd, Except.isOk, Except.toBool]
        · simp [handleStorageEvent, hcond, Except.isOk, Except.toBool]
  · intro sk ek v e storage' hist hget hv hd
    subst hist
    simp [loadFromLocalStorage, hget, hv, hd]
  · intro sk ek v e storage' hist hek hnv hv hd
    subst hist hek hnv
    simp [handleStorageEvent, hv, hd]

/-- C5 witness: a loaded instance over a stored value `x` that fails
decryption with a type error; both read paths return `.ok` and do not
invoke the callback. -/
theorem c5_read_paths_absorbed_witness :
    (loadFromLocalStorage opsW ⟨true, true⟩
      (fun s => (Except.ok s : Except Unit String)) 0 (.loaded "k" [])
      [("k", "x")]).1.isOk = true ∧
    (handleStorageEvent opsW ⟨true, true⟩
      (fun s => (Except.ok s : Except Unit String)) 0 (.loaded "k" [])
      [("k", "x")] (some "k") (some "x")).1.isOk = true ∧
    Storage.get [("k", "x")] "k" = some "x" ∧ ("x" : String) ≠ "" ∧
    decryptState opsW ⟨true, true⟩ (fun s => (Except.ok s : Except Unit String)) 0
      (.loaded "k" []) [("k", "x")] "x" = (.error .typeError, [("k", "x")]) ∧
    loadFromLocalStorage opsW ⟨true, true⟩
      (fun s => (Except.ok s : Except Unit String)) 0 (.loaded "k" [])
      [("k", "x")] = (.ok none, [("k", "x")]) ∧
    handleStorageEvent opsW ⟨true, true⟩
      (fun s => (Except.ok s : Except Unit String)) 0 (.loaded "k" [])
      [("k", "x")] (some "k") (some "x") = (.ok none, [("k", "x")]) := by
  have h := c5_read_paths_absorbed opsW ⟨true, true⟩
    (fun s => (Except.ok s : Except Unit String)) 0 (.loaded "k" []) [("k", "x")]
    (some "k") (some "x")
  refine ⟨h.1, h.2.1, by decide, by decide, by decide, ?_, ?_⟩
  · exact h.2.2.1 "k" [] "x" .typeError [("k", "x")] rfl (by decide) (by decide)
      (by decide)
  · exact h.2.2.2 "k" [] "x" .typeError [("k", "x")] rfl rfl rfl (by decide)
      (by decide)

/-- C6 counterexample: with a window present but the crypto capability
unavailable, setup completes without throwing and leaves the instance idle
— but a subsequent setState or clearState fails with the not-ready error,
which is not the recoverable disabled condition the claim requires
(setState/clearState only check for the window, never for crypto). -/
theorem c6_counterexample :
    setup opsW ⟨true, false⟩ "default" (base64UrlEncode secretW) = .ok .idle ∧
      setState opsW ⟨true, false⟩ (fun s : String => s) 0 0 [] .idle [] "s" none =
        (.notReadyError, []) ∧
      clearState ⟨true, false⟩ .idle [] = (.notReadyError, []) ∧
      WriteResult.notReadyError ≠ WriteResult.disabledWarning :=
  ⟨by decide, by decide, by decide, by decide⟩

/-- C6 amended: without a window, setup completes without throwing, leaves
the instance idle, and setState/clearState surface the disabled condition
as a console warning rather than an error; with a window present but
crypto unavailable, setup still completes without throwing and leaves the
instance idle, but setState and clearState fail with the not-ready
error. -/
theorem c6_amended {σ : Type} (ops : CipherOps) (hc : Bool) (ns ek : String)
    (serializeState : σ → String) (defaultTTL now : Int) (iv : List Nat)
    (ist : InternalState) (storage : Storage) (state : σ)
    (ttlOption : Option Int) :
    (setup ops ⟨false, hc⟩ ns ek = .ok .idle ∧
      setState ops ⟨false, hc⟩ serializeState defaultTTL now iv ist storage state
        ttlOption = (.disabledWarning, storage) ∧
      clearState ⟨false, hc⟩ ist storage = (.disabledWarning, storage)) ∧
    (setup ops ⟨true, false⟩ ns ek = .ok .idle ∧
      setState ops ⟨true, false⟩ serializeState defaultTTL now iv .idle storage
        state ttlOption = (.notReadyError, storage) ∧
      clearState ⟨true, false⟩ .idle storage = (.notReadyError, storage)) := by
  refine ⟨⟨?_, ?_, ?_⟩, ⟨?_, ?_, ?_⟩⟩ <;> simp [setup, setState, clearState]
